import Mathlib

/-!
Verification of the selection-triggered annotation pipeline of `pedaru-vue`:
response normalization (`parseTranslationResponse` / `parseExplanationResponse`),
the backend route handlers (`POST` of the translate and explain routes), the
client dispatchers (`translateWithGemini` / `explainDirectly`), and the
context-menu composable (`useContextMenu`).

The JavaScript runtime primitives the code relies on (`JSON.parse`, `String.prototype.trim`,
the three `replace` regexes, property access including its `TypeError` on `null`,
truthiness) are modelled explicitly below; the repository functions are then
translated statement by statement.
-/

set_option maxRecDepth 4000

namespace Pedaru

/-! ## JavaScript value model -/

/-- A JSON number as produced by `JSON.parse`, kept in unevaluated literal form
`sign * intPart.fracDigits * 10 ^ exponent`.  The pipeline under verification
never compares numeric values; it only tests a number for truthiness, which is
zero-ness, decidable on this representation. -/
structure JsNumber where
  negative : Bool
  intPart : Nat
  fracDigits : List Nat
  exponent : Int
  deriving DecidableEq, Repr

/-- Zero-ness of a JSON number (the only numeric question the code ever asks:
a number is falsy exactly when its value is zero). -/
def JsNumber.isZero (n : JsNumber) : Bool :=
  n.intPart == 0 && n.fracDigits.all fun d => d == 0

/-- JavaScript values reachable from `JSON.parse` output: no `undefined`
(missing properties are modelled as `Option.none` at use sites), no functions. -/
inductive JsValue where
  | null : JsValue
  | bool (b : Bool) : JsValue
  | num (n : JsNumber) : JsValue
  | str (s : String) : JsValue
  | arr (elems : List JsValue) : JsValue
  | obj (fields : List (String × JsValue)) : JsValue

/-- Exceptions thrown by the modelled runtime operations: `JSON.parse` on
malformed input, and property access on `null`. -/
inductive JsErr where
  | badJson : JsErr
  | typeErr : JsErr
  deriving DecidableEq, Repr

/-- JavaScript truthiness on our value model (`null`, `false`, `0`, `""` are
falsy; every object and array is truthy). -/
def truthy : JsValue → Bool
  | .null => false
  | .bool b => b
  | .num n => !n.isZero
  | .str s => !(s == "")
  | .arr _ => true
  | .obj _ => true

/-- Property lookup on the field list of an object built by `JSON.parse`:
with duplicate keys the later assignment wins, so the last binding is
returned. -/
def lookupField : List (String × JsValue) → String → Option JsValue
  | [], _ => none
  | (k, v) :: rest, key =>
    match lookupField rest key with
    | some w => some w
    | none => if k == key then some v else none

/-- JavaScript property access `v.key`: throws `TypeError` on `null`, yields
`undefined` (here `none`) on primitives and arrays and on absent keys. -/
def jsGetProp (v : JsValue) (key : String) : Except JsErr (Option JsValue) :=
  match v with
  | .null => .error .typeErr
  | .obj fields => .ok (lookupField fields key)
  | _ => .ok none

/-- `Array.isArray` applied to a possibly-`undefined` value. -/
def isArrayOpt : Option JsValue → Bool
  | some (.arr _) => true
  | _ => false

/-- Truthiness of a possibly-`undefined` value (`undefined` is falsy). -/
def truthyOpt : Option JsValue → Bool
  | none => false
  | some v => truthy v

/-! ## JSON parser (model of `JSON.parse`)

A recursive-descent parser over the character list, with a fuel argument for
structural termination; `jsonParse` supplies enough fuel for any input. -/

/-- JSON whitespace accepted between tokens by `JSON.parse` (RFC 8259). -/
def isJsonWs (c : Char) : Bool :=
  match c with
  | ' ' | '\t' | '\n' | '\r' => true
  | _ => false

/-- Skip JSON inter-token whitespace. -/
def skipWs (cs : List Char) : List Char :=
  cs.dropWhile isJsonWs

/-- Value of a hexadecimal digit, if any. -/
def hexDigitVal (c : Char) : Option Nat :=
  let n := c.toNat
  if 48 ≤ n ∧ n ≤ 57 then some (n - 48)
  else if 97 ≤ n ∧ n ≤ 102 then some (n - 87)
  else if 65 ≤ n ∧ n ≤ 70 then some (n - 55)
  else none

/-- Four hexadecimal digits of a `\uXXXX` escape. -/
def parseHex4 : List Char → Option (Nat × List Char)
  | c1 :: c2 :: c3 :: c4 :: rest =>
    match hexDigitVal c1, hexDigitVal c2, hexDigitVal c3, hexDigitVal c4 with
    | some a, some b, some c, some d => some (a * 4096 + b * 256 + c * 16 + d, rest)
    | _, _, _, _ => none
  | _ => none

/-- The character denoted by a single-character escape, if the escape is
legal. -/
def escapeChar (e : Char) : Option Char :=
  match e with
  | '"' => some '"'
  | '\\' => some '\\'
  | '/' => some '/'
  | 'b' => some '\x08'
  | 'f' => some '\x0c'
  | 'n' => some '\n'
  | 'r' => some '\r'
  | 't' => some '\t'
  | _ => none

/-- Body of a JSON string after its opening quote, handling the standard
escapes.  Raw control characters are rejected as `JSON.parse` does.  A
`\uXXXX` escape becomes the corresponding character (lone surrogates, which
our `Char` cannot carry, degrade to the replacement behavior of `Char.ofNat`;
no input considered by the claims contains them). -/
def parseStringBody : Nat → List Char → List Char → Option (String × List Char)
  | 0, _, _ => none
  | _ + 1, [], _ => none
  | fuel + 1, c :: rest, acc =>
    if c == '"' then
      some (⟨acc.reverse⟩, rest)
    else if c == '\\' then
      match rest with
      | [] => none
      | e :: rest2 =>
        if e == 'u' then
          match parseHex4 rest2 with
          | some (n, rest3) => parseStringBody fuel rest3 (Char.ofNat n :: acc)
          | none => none
        else
          match escapeChar e with
          | some ch => parseStringBody fuel rest2 (ch :: acc)
          | none => none
    else if c.toNat < 32 then none
    else parseStringBody fuel rest (c :: acc)

/-- Decimal digit value, if any. -/
def digitVal (c : Char) : Option Nat :=
  let n := c.toNat
  if 48 ≤ n ∧ n ≤ 57 then some (n - 48) else none

/-- Split off a maximal run of decimal digits. -/
def takeDigits (cs : List Char) : List Nat × List Char :=
  match cs with
  | [] => ([], [])
  | c :: rest =>
    match digitVal c with
    | some d =>
      let (ds, rest2) := takeDigits rest
      (d :: ds, rest2)
    | none => ([], cs)

/-- Value of a digit run. -/
def digitsToNat (ds : List Nat) : Nat :=
  ds.foldl (fun acc d => acc * 10 + d) 0

/-- A JSON number literal: optional minus, integer part, optional fraction,
optional exponent.  (`JSON.parse` rejects leading zeros such as `01`; our
caller rejects those via the leftover `1`, reaching the same verdict.) -/
def parseNumber (cs : List Char) : Option (JsValue × List Char) :=
  let (neg, cs1) :=
    match cs with
    | '-' :: rest => (true, rest)
    | _ => (false, cs)
  let (intDs, cs2) := takeDigits cs1
  if intDs.isEmpty then none
  else
    let (fracDs, cs3) :=
      match cs2 with
      | '.' :: rest =>
        let (ds, rest2) := takeDigits rest
        if ds.isEmpty then ([], cs2) else (ds, rest2)
      | _ => ([], cs2)
    let (expVal, cs4) :=
      match cs3 with
      | e :: rest =>
        if e == 'e' || e == 'E' then
          let (esign, rest2) :=
            match rest with
            | '+' :: r => ((1 : Int), r)
            | '-' :: r => ((-1 : Int), r)
            | _ => ((1 : Int), rest)
          let (eds, rest3) := takeDigits rest2
          if eds.isEmpty then ((0 : Int), cs3)
          else (esign * (digitsToNat eds : Int), rest3)
        else ((0 : Int), cs3)
      | [] => ((0 : Int), cs3)
    some (.num ⟨neg, digitsToNat intDs, fracDs, expVal⟩, cs4)

/-- Match an exact keyword such as `true`. -/
def expectChars : List Char → List Char → Option (List Char)
  | [], cs => some cs
  | k :: ks, c :: cs => if c == k then expectChars ks cs else none
  | _ :: _, [] => none

mutual

/-- One JSON value (leading whitespace allowed), returning the remainder. -/
def parseValue : Nat → List Char → Option (JsValue × List Char)
  | 0, _ => none
  | fuel + 1, cs =>
    match skipWs cs with
    | [] => none
    | c :: rest =>
      if c == '"' then
        match parseStringBody (rest.length + 1) rest [] with
        | some (s, r) => some (.str s, r)
        | none => none
      else if c == '[' then
        match skipWs rest with
        | ']' :: r => some (.arr [], r)
        | other => parseArrayElems fuel other []
      else if c == '{' then
        match skipWs rest with
        | '}' :: r => some (.obj [], r)
        | other => parseObjMembers fuel other []
      else if c == 't' then
        match expectChars ['r', 'u', 'e'] rest with
        | some r => some (.bool true, r)
        | none => none
      else if c == 'f' then
        match expectChars ['a', 'l', 's', 'e'] rest with
        | some r => some (.bool false, r)
        | none => none
      else if c == 'n' then
        match expectChars ['u', 'l', 'l'] rest with
        | some r => some (.null, r)
        | none => none
      else
        parseNumber (c :: rest)

/-- Comma-separated array elements up to the closing bracket. -/
def parseArrayElems : Nat → List Char → List JsValue → Option (JsValue × List Char)
  | 0, _, _ => none
  | fuel + 1, cs, acc =>
    match parseValue fuel cs with
    | none => none
    | some (v, rest) =>
      match skipWs rest with
      | ',' :: rest2 => parseArrayElems fuel rest2 (v :: acc)
      | ']' :: rest2 => some (.arr (v :: acc).reverse, rest2)
      | _ => none

/-- Comma-separated `"key": value` members up to the closing brace. -/
def parseObjMembers : Nat → List Char → List (String × JsValue) → Option (JsValue × List Char)
  | 0, _, _ => none
  | fuel + 1, cs, acc =>
    match skipWs cs with
    | '"' :: rest =>
      match parseStringBody (rest.length + 1) rest [] with
      | none => none
      | some (key, rest2) =>
        match skipWs rest2 with
        | ':' :: rest3 =>
          match parseValue fuel rest3 with
          | none => none
          | some (v, rest4) =>
            match skipWs rest4 with
            | ',' :: rest5 => parseObjMembers fuel rest5 ((key, v) :: acc)
            | '}' :: rest5 => some (.obj ((key, v) :: acc).reverse, rest5)
            | _ => none
        | _ => none
    | _ => none

end

/-- Model of `JSON.parse`: parse one value, require only whitespace after it,
throw `SyntaxError` (here `JsErr.badJson`) otherwise. -/
def jsonParse (s : String) : Except JsErr JsValue :=
  match parseValue (s.data.length + 1) s.data with
  | some (v, rest) =>
    if (skipWs rest).isEmpty then .ok v else .error .badJson
  | none => .error .badJson

/-! ## String cleaning (model of `trim` and the three `replace` regexes) -/

/-- The whitespace class of JavaScript, shared by `String.prototype.trim` and
the regex class used in the fence-stripping replacements: ASCII whitespace
plus no-break space, BOM and the Unicode space separators. -/
def isJsWs (c : Char) : Bool :=
  match c with
  | ' ' | '\t' | '\n' | '\r' | '\x0b' | '\x0c' => true
  | '\u00A0' | '\uFEFF' | '\u1680' => true
  | '\u2028' | '\u2029' | '\u202F' | '\u205F' | '\u3000' => true
  | c => '\u2000' ≤ c && c ≤ '\u200A'

/-- Model of `String.prototype.trim`. -/
def jsTrim (s : String) : String :=
  ⟨((s.data.dropWhile isJsWs).reverse.dropWhile isJsWs).reverse⟩

/-- The literal marker of a fenced json code block. -/
def fenceJsonMarker : List Char := "```json".data

/-- The literal three-backtick fence marker. -/
def fenceMarker : List Char := "```".data

/-- Model of `.replace(new RegExp of marker at start then whitespace run, empty)`:
if the string starts with the marker, remove it and the following whitespace
run; otherwise leave the string unchanged. -/
def stripLeadMarker (marker : List Char) (s : String) : String :=
  if s.data.take marker.length == marker then
    ⟨(s.data.drop marker.length).dropWhile isJsWs⟩
  else s

/-- Model of `.replace(new RegExp of whitespace run then fence at end, empty)`:
if the string ends with the three-backtick fence, remove it together with the
whitespace run before it; otherwise leave the string unchanged. -/
def stripTrailFence (s : String) : String :=
  let r := s.data.reverse
  if r.take 3 == ['\x60', '\x60', '\x60'] then
    ⟨((r.drop 3).dropWhile isJsWs).reverse⟩
  else s

/-- The `cleaned` string of both normalizers:
`text.trim()`, strip a leading fenced-json marker, strip a leading bare fence,
strip a trailing fence, `trim()` again. -/
def cleanedText (text : String) : String :=
  jsTrim (stripTrailFence (stripLeadMarker fenceMarker
    (stripLeadMarker fenceJsonMarker (jsTrim text))))

/-! ## Response normalizers -/

/-- The body of the first two parse stages of both normalizers, with the
primary key `"translation"` or `"summary"`: `JSON.parse` the string and, when
the parsed value has a defined primary property and an array `points`
property, return it as-is; property access may throw on a `null` parse
result. -/
def directAttempt (primaryKey : String) (s : String) : Except JsErr (Option JsValue) :=
  match jsonParse s with
  | .error e => .error e
  | .ok parsed =>
    match jsGetProp parsed primaryKey with
    | .error e => .error e
    | .ok primary =>
      match jsGetProp parsed "points" with
      | .error e => .error e
      | .ok pts =>
        if primary.isSome && isArrayOpt pts then .ok (some parsed)
        else .ok none

/-- The body of the third, lenient parse stage: `JSON.parse` the cleaned
string; when the value is an array take its first element as candidate; when
the candidate is truthy, keep the primary property only when it is a string
(else empty string) and keep only the string elements of `points`. -/
def lenientAttempt (primaryKey : String) (cleaned : String) : Except JsErr (Option JsValue) :=
  match jsonParse cleaned with
  | .error e => .error e
  | .ok value =>
    let objCand : Option JsValue :=
      match value with
      | .arr elems => elems.head?
      | v => some v
    match objCand with
    | some o =>
      if truthy o then
        match jsGetProp o primaryKey with
        | .error e => .error e
        | .ok primaryField =>
          let primary : String :=
            match primaryField with
            | some (.str s) => s
            | _ => ""
          match jsGetProp o "points" with
          | .error e => .error e
          | .ok ptsField =>
            let points : List JsValue :=
              match ptsField with
              | some (.arr xs) => xs.filter fun p =>
                  match p with
                  | .str _ => true
                  | _ => false
              | _ => []
            .ok (some (.obj [(primaryKey, .str primary), ("points", .arr points)]))
      else .ok none
    | none => .ok none

/-- The `try { ... } catch { /* continue */ }` wrapper around each stage:
a thrown `SyntaxError` or `TypeError` is swallowed and the stage yields no
result. -/
def caught (x : Except JsErr (Option JsValue)) : Option JsValue :=
  match x with
  | .ok r => r
  | .error _ => none

/-- `parseTranslationResponse` of the translate route: the three parse stages
in order, first success wins, then the raw-text fallback.  The result type
records that an uncaught exception would surface as `Except.error`; every
return path of the source is a normal return. -/
def parseTranslationResponse (text : String) : Except JsErr JsValue :=
  match caught (directAttempt "translation" text) with
  | some v => .ok v
  | none =>
    let cleaned := cleanedText text
    match caught (directAttempt "translation" cleaned) with
    | some v => .ok v
    | none =>
      match caught (lenientAttempt "translation" cleaned) with
      | some v => .ok v
      | none => .ok (.obj [("translation", .str text), ("points", .arr [])])

/-- `parseExplanationResponse` of the explain route: identical staging with
primary key `"summary"`. -/
def parseExplanationResponse (text : String) : Except JsErr JsValue :=
  match caught (directAttempt "summary" text) with
  | some v => .ok v
  | none =>
    let cleaned := cleanedText text
    match caught (directAttempt "summary" cleaned) with
    | some v => .ok v
    | none =>
      match caught (lenientAttempt "summary" cleaned) with
      | some v => .ok v
      | none => .ok (.obj [("summary", .str text), ("points", .arr [])])

/-! ## Well-formedness of a normalizer result -/

/-- Pure property lookup on an object value (no exception model needed:
used only to state properties of results). -/
def objField (v : JsValue) (key : String) : Option JsValue :=
  match v with
  | .obj fields => lookupField fields key
  | _ => none

/-- Whether a value is a JSON string. -/
def isStringVal : JsValue → Bool
  | .str _ => true
  | _ => false

/-- The well-formedness the specification asserts of every normalizer result:
the primary field is a string and every element of `points` is a string. -/
def wellFormedResult (primaryKey : String) (v : JsValue) : Bool :=
  match objField v primaryKey, objField v "points" with
  | some (.str _), some (.arr pts) => pts.all isStringVal
  | _, _ => false

/-! ## Backend route handlers (the `POST` functions of the two routes) -/

/-- The `GEMINI_API_BASE` constant shared by both routes. -/
def GEMINI_API_BASE : String := "https://generativelanguage.googleapis.com/v1beta"

/-- The `TRANSLATION_SYSTEM_INSTRUCTION` constant of the route source. -/
def TRANSLATION_SYSTEM_INSTRUCTION : String :=
  "You are a professional English-to-Japanese translator and language teacher.\n\n## Your Task\nTranslate ONLY the \"SELECTED TEXT\" provided by the user. The context is for understanding only.\n\n## Output Format (STRICT - follow exactly):\n- Output MUST be valid JSON only. No markdown code blocks, no extra text.\n- The JSON structure MUST be:\n\x7b\n  \"translation\": \"Translation result in Japanese (string)\",\n  \"points\": [\"Point 1 (string)\", \"Point 2 (string)\", \"Point 3 (string)\"]\n\x7d\n\n## Critical Rules:\n- The \"points\" field MUST be a flat array of strings. DO NOT use nested objects.\n- Each element in points must be a simple string, not an object.\n- All output text MUST be in Japanese.\n- IMPORTANT: Translate ONLY the SELECTED TEXT, not the context.\n\n## Translation Rules:\n- For single words, idioms, or short phrases (no spaces, or 2-3 words):\n  - translation: Only the meaning of the word/idiom. NOT a translation of the entire sentence.\n  - points: A flat array of strings containing:\n    1. \"単語の意味: [explanation of the word in Japanese]\"\n    2. \"原文: [Extract the COMPLETE English sentence containing the word from the context, with ***highlighted*** word]\"\n    3. \"訳: [Japanese translation of that complete sentence, with ***highlighted*** translation of the word]\"\n    4. \"類語・言い換え: [synonyms in English with Japanese meanings]\"\n  - Example output:\n    \x7b\n      \"translation\": \"活用する、利用する\",\n      \"points\": [\n        \"単語の意味: 何かの力や資源を有効に使うこと\",\n        \"原文: The goal is to ***harness*** the power of AI.\",\n        \"訳: 目標はAIの力を***活用する***ことです。\",\n        \"類語・言い換え: utilize（活用する）, leverage（活かす）, exploit（利用する）\"\n      ]\n    \x7d\n  - CRITICAL: How to find the 原文 (original sentence):\n    - The selected word appears at the EXACT BOUNDARY between \"Context before\" and \"Context after\".\n    - The 原文 containing the selected word is: (end of \"Context before\") + (selected word) + (beginning of \"Context after\")\n    - If the same word appears multiple times in the context, you MUST use ONLY the occurrence at the boundary position.\n    - DO NOT pick a sentence from earlier in Context before that happens to contain the same word.\n\n- For sentences or longer text:\n  - translation: Full Japanese translation of the text\n  - points: A flat array of strings with grammatical explanations:\n    1. Each point is a single string explaining one grammar structure\n    2. Focus on challenging structures: relative clauses, participle constructions, etc.\n    3. Include synonyms or alternative expressions where helpful"

/-- The `TRANSLATION_PROMPT` constant of the route source. -/
def TRANSLATION_PROMPT : String :=
  "SELECTED TEXT (translate this):\n\x7btext\x7d\n\nContext before:\n\x7bcontext_before\x7d\n\nContext after:\n\x7bcontext_after\x7d"

/-- The `EXPLANATION_SYSTEM_INSTRUCTION` constant of the route source. -/
def EXPLANATION_SYSTEM_INSTRUCTION : String :=
  "You are an expert at explaining complex concepts in simple, easy-to-understand terms.\n\n## Output Format (STRICT - follow exactly):\n- Output MUST be valid JSON only. No markdown code blocks, no extra text.\n- The JSON structure MUST be:\n\x7b\n  \"summary\": \"One-sentence summary (string)\",\n  \"points\": [\"Point 1 (string)\", \"Point 2 (string)\", \"Point 3 (string)\"]\n\x7d\n\n## Critical Rules:\n- The \"points\" field MUST be a flat array of strings. DO NOT use nested objects.\n- All output text MUST be in Japanese.\n\n## Explanation Guidelines:\n\n### Summary (summary field):\n- Summarize the essence in ONE sentence\n- Use phrases like \"要するに〜ということ\" or \"つまり〜\"\n- Make it understandable even for someone unfamiliar with the topic\n\n### Explanation points (points field):\n- Rephrase technical terms in plain language: \"〇〇（つまり△△のこと）\"\n- Use familiar analogies or metaphors to explain abstract concepts\n- Add context about \"why this matters\" or \"what benefit does this provide\"\n- For technical content, explain practical use cases and benefits concretely\n- For academic content, explain the importance in the field and application examples\n- Each point should be independently understandable\n- Keep each point to 2-3 sentences"

/-- The `EXPLANATION_PROMPT` constant of the route source. -/
def EXPLANATION_PROMPT : String :=
  "Explain the following text.\n\nThe user has selected text from a PDF document. The context shows the surrounding text:\n- \"Context before\" = text that appears BEFORE the selected text in the document\n- \"Text to explain\" = the actual text the user selected\n- \"Context after\" = text that appears AFTER the selected text in the document\n\n## Context before (for understanding only):\n\x7bcontext_before\x7d\n\n## Text to explain:\n\x7btext\x7d\n\n## Context after (for understanding only):\n\x7bcontext_after\x7d\n\nUse the context to understand the meaning, but explain only the selected text."

mutual

/-- Coarse model of JavaScript string coercion `String(v)`, used only where a
non-string value reaches a string position (never on the paths the claims
exercise): numbers are printed from their literal parts, arrays join their
elements with commas. -/
def jsToString : JsValue → String
  | .null => "null"
  | .bool b => if b then "true" else "false"
  | .num n =>
    (if n.negative then "-" else "") ++ toString n.intPart ++
    (if n.fracDigits.isEmpty then "" else "." ++ String.join (n.fracDigits.map toString)) ++
    (if n.exponent == 0 then "" else "e" ++ toString n.exponent)
  | .str s => s
  | .arr xs => jsToStringList xs
  | .obj _ => "[object Object]"

/-- Comma-join of array elements for `jsToString`. -/
def jsToStringList : List JsValue → String
  | [] => ""
  | [x] => jsToString x
  | x :: y :: xs => jsToString x ++ "," ++ jsToStringList (y :: xs)

end

/-- The parsed JSON body of a request to a route handler, as destructured by
`const (braces text, contextBefore, contextAfter, model) = await request.json()`;
an absent field is `none`. -/
structure ApiRequestBody where
  text : Option String
  contextBefore : Option String
  contextAfter : Option String
  model : Option String
  deriving DecidableEq, Repr

/-- Falsiness of a possibly-absent string (JS `!x`): absent or empty. -/
def strFalsy : Option String → Bool
  | none => true
  | some s => s == ""

/-- JS `x || y` where `x` is a possibly-absent string and `y` a string. -/
def strOr (x : Option String) (y : String) : String :=
  match x with
  | some s => if s == "" then y else s
  | none => y

/-- Whether `pat` is an initial run of `cs`. -/
def listStarts : List Char → List Char → Bool
  | [], _ => true
  | _ :: _, [] => false
  | p :: ps, c :: cs => p == c && listStarts ps cs

/-- Split a character list around the first occurrence of `pat`. -/
def findSplit (pat : List Char) : List Char → Option (List Char × List Char)
  | [] => if pat.isEmpty then some ([], []) else none
  | c :: cs =>
    if listStarts pat (c :: cs) then some ([], (c :: cs).drop pat.length)
    else
      match findSplit pat cs with
      | some (pre, post) => some (c :: pre, post)
      | none => none

/-- Model of `String.prototype.replace` with a plain string pattern: only the
first occurrence is replaced. -/
def replaceFirst (s pat repl : String) : String :=
  match findSplit pat.data s.data with
  | some (pre, post) => ⟨pre ++ repl.data ++ post⟩
  | none => s

/-- The request a route handler sends to the upstream generation endpoint:
URL (with model id and key), assembled prompt, system instruction, and the
forced response mime type from `generationConfig`. -/
structure UpstreamRequest where
  url : String
  prompt : String
  systemInstruction : String
  responseMimeType : String
  deriving DecidableEq, Repr

/-- The upstream HTTP response: status code and body text. -/
structure UpstreamResponse where
  status : Nat
  body : String
  deriving DecidableEq, Repr

/-- `Response.ok` of `fetch`: a status in the 2xx range. -/
def respOk (r : UpstreamResponse) : Bool :=
  200 ≤ r.status && r.status ≤ 299

/-- A `NextResponse.json(body, status)` value produced by a handler. -/
structure HandlerResponse where
  body : JsValue
  status : Nat

/-- `NextResponse.json((brace) error: msg (brace), (brace) status (brace))`. -/
def errorJson (msg : String) (status : Nat) : HandlerResponse :=
  ⟨.obj [("error", .str msg)], status⟩

/-- Optional chaining `x?.key`: short-circuits on `null`/`undefined`, plain
(never-throwing) property access otherwise. -/
def chainProp (v : Option JsValue) (key : String) : Option JsValue :=
  match v with
  | none => none
  | some .null => none
  | some (.obj fields) => lookupField fields key
  | some _ => none

/-- Optional chaining `x?.[0]`. -/
def chainIndex0 (v : Option JsValue) : Option JsValue :=
  match v with
  | none => none
  | some (.arr elems) => elems.head?
  | some _ => none

/-- The outer `catch` of both handlers reports `error.message`; the exact text
of an engine exception message is environment-specific and is modelled by a
fixed tag per exception kind. -/
def jsErrMessage : JsErr → String
  | .badJson => "SyntaxError"
  | .typeErr => "TypeError"

/-- The translate handler code after a 2xx upstream response:
`response.json()`, the `data.error` check, candidate text extraction via the
optional chain, the empty-candidate 500, and normalization.  Thrown
exceptions propagate to the outer catch as `Except.error`. -/
def translateProcessBody (responseBody : String) : Except JsErr HandlerResponse := do
  let data ← jsonParse responseBody
  let errField ← jsGetProp data "error"
  if truthyOpt errField then
    let e := errField.getD .null
    let emsg ← jsGetProp e "message"
    return ⟨(match emsg with
      | some m => JsValue.obj [("error", m)]
      | none => JsValue.obj []), 500⟩
  else
    let candidates ← jsGetProp data "candidates"
    let resultText :=
      chainProp (chainIndex0 (chainProp (chainProp (chainIndex0 candidates) "content") "parts")) "text"
    if !(truthyOpt resultText) then
      return errorJson "No response from API" 500
    else
      let raw :=
        match resultText with
        | some v => jsToString v
        | none => ""
      let parsed ← parseTranslationResponse raw
      return ⟨parsed, 200⟩

/-- `POST` of the translate route.  The server credential read from
`process.env.GEMINI_API_KEY` is the `apiKey` argument; the upstream `fetch` is
the `upstream` argument.  The second component collects every request issued
to the upstream generation endpoint.  (Code before the `fetch` cannot throw,
so the outer catch is equivalently modelled around the post-response
processing.) -/
def translatePOST (apiKey : Option String) (body : ApiRequestBody)
    (upstream : UpstreamRequest → UpstreamResponse) :
    HandlerResponse × List UpstreamRequest :=
  if strFalsy apiKey then
    (errorJson "GEMINI_API_KEY is not configured. Please set it in .env.local" 500, [])
  else if strFalsy body.text then
    (errorJson "Text required" 400, [])
  else
    let prompt := replaceFirst (replaceFirst (replaceFirst TRANSLATION_PROMPT
      "\x7btext\x7d" (strOr body.text ""))
      "\x7bcontext_before\x7d" (strOr body.contextBefore ""))
      "\x7bcontext_after\x7d" (strOr body.contextAfter "")
    let url := GEMINI_API_BASE ++ "/models/" ++ strOr body.model "gemini-2.0-flash" ++
      ":generateContent?key=" ++ strOr apiKey ""
    let req : UpstreamRequest := ⟨url, prompt, TRANSLATION_SYSTEM_INSTRUCTION, "application/json"⟩
    let response := upstream req
    if !(respOk response) then
      let status := response.status
      let errorText := response.body
      let errorMessage :=
        if status == 429 then
          "Rate limit exceeded. Please wait a moment and try again."
        else if status == 401 || status == 403 then
          "Invalid API key. Please check your Gemini API key in Settings."
        else
          "API error (" ++ toString status ++ "): " ++ errorText
      (errorJson errorMessage status, [req])
    else
      match translateProcessBody response.body with
      | .ok r => (r, [req])
      | .error e => (errorJson (jsErrMessage e) 500, [req])

/-- The explain handler code after a 2xx upstream response (identical staging
with the explanation normalizer). -/
def explainProcessBody (responseBody : String) : Except JsErr HandlerResponse := do
  let data ← jsonParse responseBody
  let errField ← jsGetProp data "error"
  if truthyOpt errField then
    let e := errField.getD .null
    let emsg ← jsGetProp e "message"
    return ⟨(match emsg with
      | some m => JsValue.obj [("error", m)]
      | none => JsValue.obj []), 500⟩
  else
    let candidates ← jsGetProp data "candidates"
    let resultText :=
      chainProp (chainIndex0 (chainProp (chainProp (chainIndex0 candidates) "content") "parts")) "text"
    if !(truthyOpt resultText) then
      return errorJson "No response from API" 500
    else
      let raw :=
        match resultText with
        | some v => jsToString v
        | none => ""
      let parsed ← parseExplanationResponse raw
      return ⟨parsed, 200⟩

/-- `POST` of the explain route; same structure as the translate route with
the explanation prompt, instruction and normalizer. -/
def explainPOST (apiKey : Option String) (body : ApiRequestBody)
    (upstream : UpstreamRequest → UpstreamResponse) :
    HandlerResponse × List UpstreamRequest :=
  if strFalsy apiKey then
    (errorJson "GEMINI_API_KEY is not configured. Please set it in .env.local" 500, [])
  else if strFalsy body.text then
    (errorJson "Text required" 400, [])
  else
    let prompt := replaceFirst (replaceFirst (replaceFirst EXPLANATION_PROMPT
      "\x7btext\x7d" (strOr body.text ""))
      "\x7bcontext_before\x7d" (strOr body.contextBefore ""))
      "\x7bcontext_after\x7d" (strOr body.contextAfter "")
    let url := GEMINI_API_BASE ++ "/models/" ++ strOr body.model "gemini-2.0-flash" ++
      ":generateContent?key=" ++ strOr apiKey ""
    let req : UpstreamRequest := ⟨url, prompt, EXPLANATION_SYSTEM_INSTRUCTION, "application/json"⟩
    let response := upstream req
    if !(respOk response) then
      let status := response.status
      let errorText := response.body
      let errorMessage :=
        if status == 429 then
          "Rate limit exceeded. Please wait a moment and try again."
        else if status == 401 || status == 403 then
          "Invalid API key. Please check your Gemini API key in Settings."
        else
          "API error (" ++ toString status ++ "): " ++ errorText
      (errorJson errorMessage status, [req])
    else
      match explainProcessBody response.body with
      | .ok r => (r, [req])
      | .error e => (errorJson (jsErrMessage e) 500, [req])

/-! ## Client-side settings and dispatchers (`src/lib/settings.ts`) -/

/-- The persisted Gemini settings record. -/
structure GeminiSettings where
  apiKey : String
  model : String
  explanationModel : String
  deriving DecidableEq, Repr

/-- The default translation model id. -/
def DEFAULT_GEMINI_MODEL : String := "gemini-2.0-flash"

/-- The default explanation model id. -/
def DEFAULT_GEMINI_EXPLANATION_MODEL : String := "gemini-2.0-flash"

/-- The default settings record. -/
def DEFAULT_GEMINI_SETTINGS : GeminiSettings :=
  ⟨"", DEFAULT_GEMINI_MODEL, DEFAULT_GEMINI_EXPLANATION_MODEL⟩

/-- JS `v || dflt` for a possibly-absent value used as a string. -/
def jsOrDefaultStr (v : Option JsValue) (dflt : String) : String :=
  match v with
  | some u => if truthy u then jsToString u else dflt
  | none => dflt

/-- `getGeminiSettings`, with the `localStorage.getItem` read supplied as the
`stored` argument (`none` models a missing key, and also the server-side
`typeof window` branch, which returns the same defaults).  A parse failure or
a throwing property access is caught and falls through to the default
record; `apiKey` is always returned empty. -/
def getGeminiSettings (stored : Option String) : GeminiSettings :=
  match stored with
  | none => DEFAULT_GEMINI_SETTINGS
  | some s =>
    if s == "" then DEFAULT_GEMINI_SETTINGS
    else
      match (do
        let parsed ← jsonParse s
        let m ← jsGetProp parsed "model"
        let em ← jsGetProp parsed "explanationModel"
        pure (GeminiSettings.mk ""
          (jsOrDefaultStr m DEFAULT_GEMINI_MODEL)
          (jsOrDefaultStr em DEFAULT_GEMINI_EXPLANATION_MODEL)) :
        Except JsErr GeminiSettings) with
      | .ok st => st
      | .error _ => DEFAULT_GEMINI_SETTINGS

/-- The JSON body a dispatcher POSTs to its backend route, together with the
route URL. -/
structure ClientRequest where
  url : String
  text : String
  contextBefore : String
  contextAfter : String
  model : String
  deriving DecidableEq, Repr

/-- The HTTP response the dispatcher receives from its backend route. -/
structure ClientResponse where
  status : Nat
  body : String
  deriving DecidableEq, Repr

/-- `Response.ok` for the dispatcher response. -/
def clientRespOk (r : ClientResponse) : Bool :=
  200 ≤ r.status && r.status ≤ 299

/-- How a dispatcher call can fail: an explicit `throw new Error(message)`, or
an engine exception (from `response.json()` or a property access) propagating
out of the function, which has no catch of its own. -/
inductive ClientFailure where
  | thrown (message : String) : ClientFailure
  | uncaught (e : JsErr) : ClientFailure
  deriving DecidableEq, Repr

/-- `translateWithGemini` of `settings.ts`: load settings, POST to the
translate route, throw the response error on a non-2xx status, otherwise
return the parsed JSON body.  The second component collects every network
request issued. -/
def translateWithGemini (stored : Option String) (text contextBefore contextAfter : String)
    (modelOverride : Option String) (doFetch : ClientRequest → ClientResponse) :
    Except ClientFailure JsValue × List ClientRequest :=
  let settings := getGeminiSettings stored
  let req : ClientRequest := ⟨"/api/gemini/translate", text, contextBefore, contextAfter,
    strOr modelOverride settings.model⟩
  let response := doFetch req
  if !(clientRespOk response) then
    match (do
      let errv ← jsonParse response.body
      let ef ← jsGetProp errv "error"
      pure ef : Except JsErr (Option JsValue)) with
    | .error e => (.error (.uncaught e), [req])
    | .ok ef =>
      let msg :=
        match ef with
        | some v => if truthy v then jsToString v else "Translation failed"
        | none => "Translation failed"
      (.error (.thrown msg), [req])
  else
    match jsonParse response.body with
    | .error e => (.error (.uncaught e), [req])
    | .ok v => (.ok v, [req])

/-- `explainDirectly` of `settings.ts`: same structure against the explain
route, using the `explanationModel` setting and the explanation fallback
message. -/
def explainDirectly (stored : Option String) (text contextBefore contextAfter : String)
    (modelOverride : Option String) (doFetch : ClientRequest → ClientResponse) :
    Except ClientFailure JsValue × List ClientRequest :=
  let settings := getGeminiSettings stored
  let req : ClientRequest := ⟨"/api/gemini/explain", text, contextBefore, contextAfter,
    strOr modelOverride settings.explanationModel⟩
  let response := doFetch req
  if !(clientRespOk response) then
    match (do
      let errv ← jsonParse response.body
      let ef ← jsGetProp errv "error"
      pure ef : Except JsErr (Option JsValue)) with
    | .error e => (.error (.uncaught e), [req])
    | .ok ef =>
      let msg :=
        match ef with
        | some v => if truthy v then jsToString v else "Explanation failed"
        | none => "Explanation failed"
      (.error (.thrown msg), [req])
  else
    match jsonParse response.body with
    | .error e => (.error (.uncaught e), [req])
    | .ok v => (.ok v, [req])

/-! ## Context menu composable (`src/app/composables/useContextMenu.ts`) -/

/-- The stored context-menu anchor. -/
structure ContextMenuPosition where
  x : Int
  y : Int
  deriving DecidableEq, Repr

/-- The fields of the `contextmenu` `MouseEvent` the handler reads. -/
structure MouseEventModel where
  clientX : Int
  clientY : Int
  deriving DecidableEq, Repr

/-- The window selection as inspected by `handleContextMenu`: collapsed flag,
`toString()` text, and the common ancestor container node of its first range
(identified abstractly by a node id). -/
structure SelectionModel where
  isCollapsed : Bool
  text : String
  container : Nat
  deriving DecidableEq, Repr

/-- The DOM facts the handler consults: the current window selection (if any)
and, when the `pdf-viewer-container` element exists, its `contains` relation
over node ids. -/
structure DomState where
  selection : Option SelectionModel
  pdfViewer : Option (Nat → Bool)

/-- The observable effect of one `handleContextMenu` call: the new stored
position and whether `e.preventDefault()` was called (suppressing the default
browser menu). -/
structure ContextMenuEffect where
  position : Option ContextMenuPosition
  defaultPrevented : Bool
  deriving DecidableEq, Repr

/-- `handleContextMenu`: bail out (leaving the position untouched and the
default menu unsuppressed) when there is no selection, the selection is
collapsed, the trimmed text is empty, the viewer element is missing, or the
range container is outside it; otherwise prevent the default menu and store
the event client coordinates. -/
def handleContextMenu (dom : DomState) (e : MouseEventModel)
    (position : Option ContextMenuPosition) : ContextMenuEffect :=
  match dom.selection with
  | none => ⟨position, false⟩
  | some sel =>
    if sel.isCollapsed then ⟨position, false⟩
    else
      let selectedText := jsTrim sel.text
      if selectedText == "" then ⟨position, false⟩
      else
        match dom.pdfViewer with
        | none => ⟨position, false⟩
        | some viewerContains =>
          if !(viewerContains sel.container) then ⟨position, false⟩
          else ⟨some ⟨e.clientX, e.clientY⟩, true⟩

/-- `closeContextMenu` of the composable: its body is empty, so the stored
position is returned untouched. -/
def closeContextMenu (position : Option ContextMenuPosition) :
    Option ContextMenuPosition :=
  position

/-- The candidate object of the lenient stage, named for use in theorem
statements: the first element when the parsed value is an array, else the
value itself. -/
def lenientCandidate : JsValue → Option JsValue
  | .arr elems => elems.head?
  | v => some v

/-! ## Claims -/

/-! ### Helper lemmas about the parse stages -/

/-- The string filter of the lenient stage keeps only string values. -/
theorem filter_strings_all (xs : List JsValue) :
    ((xs.filter fun p => match p with
      | JsValue.str _ => true
      | _ => false).all isStringVal) = true := by
  induction xs with
  | nil => rfl
  | cons x xs ih => cases x <;> simp [List.filter, isStringVal, ih]

/-- A two-field object whose primary field is a string and whose `points` are
all strings is well-formed. -/
theorem wellFormed_pair (key : String) (hkey : ("points" == key) = false)
    (p : String) (pts : List JsValue) (hpts : pts.all isStringVal = true) :
    wellFormedResult key (JsValue.obj [(key, JsValue.str p), ("points", JsValue.arr pts)]) = true := by
  simp [wellFormedResult, objField, lookupField, hkey, hpts]

/-- A caught stage yielding a value means the stage body returned it. -/
theorem caught_eq_some {x : Except JsErr (Option JsValue)} {v : JsValue}
    (h : caught x = some v) : x = Except.ok (some v) := by
  cases x with
  | ok r => cases h; rfl
  | error e => exact Option.noConfusion h

/-- Every value the lenient stage yields is a two-field object with a string
primary field and all-string `points`. -/
theorem lenientAttempt_ok_shape (key s : String) (v : JsValue)
    (h : lenientAttempt key s = Except.ok (some v)) :
    ∃ p pts, v = JsValue.obj [(key, JsValue.str p), ("points", JsValue.arr pts)] ∧
      pts.all isStringVal = true := by
  unfold lenientAttempt at h
  repeat'
    first
      | split at h
      | dsimp only at h
  all_goals first
    | exact Except.noConfusion h
    | (injection h with h; exact Option.noConfusion h)
    | (injection h with h; injection h with h; subst h;
       exact ⟨_, _, rfl, by first | rfl | exact filter_strings_all _⟩)

/-- When the parsed value has a falsy lenient candidate, the direct stage
yields nothing (the primary property is undefined, or the access throws on
`null`). -/
theorem directAttempt_declines (key s : String) (v : JsValue)
    (hparse : jsonParse s = Except.ok v)
    (hfalsy : truthyOpt (lenientCandidate v) = false) :
    caught (directAttempt key s) = none := by
  unfold caught directAttempt
  rw [hparse]
  cases v with
  | null => rfl
  | bool b => rfl
  | num n => rfl
  | str st => rfl
  | arr es => rfl
  | obj fs => exact absurd hfalsy (by simp [truthyOpt, truthy, lenientCandidate])

/-- When the parsed value has a falsy lenient candidate, the lenient stage
yields nothing as well. -/
theorem lenientAttempt_declines (key s : String) (v : JsValue)
    (hparse : jsonParse s = Except.ok v)
    (hfalsy : truthyOpt (lenientCandidate v) = false) :
    caught (lenientAttempt key s) = none := by
  unfold caught lenientAttempt
  rw [hparse]
  cases v with
  | null => rfl
  | bool b =>
    have hb : truthy (JsValue.bool b) = false := by
      simpa [truthyOpt, lenientCandidate] using hfalsy
    simp [hb]
  | num n =>
    have hn : truthy (JsValue.num n) = false := by
      simpa [truthyOpt, lenientCandidate] using hfalsy
    simp [hn]
  | str st =>
    have hs : truthy (JsValue.str st) = false := by
      simpa [truthyOpt, lenientCandidate] using hfalsy
    simp [hs]
  | arr es =>
    cases es with
    | nil => rfl
    | cons a rest =>
      have ha : truthy a = false := by
        simpa [truthyOpt, lenientCandidate] using hfalsy
      simp [ha]
  | obj fs => exact absurd hfalsy (by simp [truthyOpt, truthy, lenientCandidate])

/-- C7: on the input `[(brace)"summary":"x","points":["p1",(brace)"bad":1(brace),"p2"](brace)]`
(a JSON array wrapping an object whose `points` contains a nested object),
the lenient-parse stage takes the array first element as candidate, keeps the
primary field because it is a string, filters `points` to its string
elements, and the normalizer returns `summary = "x"`, `points = ["p1","p2"]`,
silently dropping the non-string element. -/
theorem c7_lenient_array_first_and_filter :
    parseExplanationResponse "[\x7b\"summary\":\"x\",\"points\":[\"p1\",\x7b\"bad\":1\x7d,\"p2\"]\x7d]" =
      Except.ok (JsValue.obj [("summary", JsValue.str "x"),
        ("points", JsValue.arr [JsValue.str "p1", JsValue.str "p2"])]) := rfl

/-- C9: evaluating the code at the failing input: `closeContextMenu` has an
empty body, so an open position (here `(10, 20)`) is left untouched rather
than cleared to `null`; only an already-null position stays null. -/
theorem c9_close_is_noop :
    closeContextMenu (some ⟨10, 20⟩) = some ⟨10, 20⟩ ∧
    closeContextMenu none = none :=
  ⟨rfl, rfl⟩

/-- C2: the normalizers are total: for every input string both
`parseTranslationResponse` and `parseExplanationResponse` return a value with
no exception escaping (each stage sits inside a catch that falls through to
the next stage, and the fallback is unconditional), so a parsing failure is
never surfaced as an error. -/
theorem c2_normalizers_total (text : String) :
    (∃ v, parseTranslationResponse text = Except.ok v) ∧
    (∃ v, parseExplanationResponse text = Except.ok v) := by
  constructor
  · unfold parseTranslationResponse
    split
    · exact ⟨_, rfl⟩
    · dsimp only
      split
      · exact ⟨_, rfl⟩
      · split
        · exact ⟨_, rfl⟩
        · exact ⟨_, rfl⟩
  · unfold parseExplanationResponse
    split
    · exact ⟨_, rfl⟩
    · dsimp only
      split
      · exact ⟨_, rfl⟩
      · split
        · exact ⟨_, rfl⟩
        · exact ⟨_, rfl⟩

/-- C5: with a falsy (unset or empty) server credential, both route handlers
answer the fixed missing-credential error with HTTP 500 and issue zero
upstream requests, for every request body (in particular for empty-text
bodies: the credential check precedes the empty-text check) and every
upstream behavior. -/
theorem c5_missing_credential (apiKey : Option String) (hkey : strFalsy apiKey = true)
    (body : ApiRequestBody) (upstream : UpstreamRequest → UpstreamResponse) :
    translatePOST apiKey body upstream =
      (errorJson "GEMINI_API_KEY is not configured. Please set it in .env.local" 500, []) ∧
    explainPOST apiKey body upstream =
      (errorJson "GEMINI_API_KEY is not configured. Please set it in .env.local" 500, []) := by
  unfold translatePOST explainPOST
  rw [hkey]
  exact ⟨rfl, rfl⟩

/-- C5 witness: with the credential unset and an empty-text body, both
handlers produce the 500 missing-credential response and no upstream
request. -/
theorem c5_missing_credential_witness :
    strFalsy (none : Option String) = true ∧
    translatePOST none ⟨some "", none, none, none⟩ (fun _ => ⟨200, "ok"⟩) =
      (errorJson "GEMINI_API_KEY is not configured. Please set it in .env.local" 500, []) :=
  ⟨rfl, (c5_missing_credential none rfl ⟨some "", none, none, none⟩ (fun _ => ⟨200, "ok"⟩)).1⟩

/-- C8: on a contextmenu event with a present, non-collapsed selection whose
trimmed text is non-empty and whose range container lies inside the existing
viewer element, `handleContextMenu` suppresses the default menu
(`preventDefault`) and stores exactly the event client coordinates. -/
theorem c8_contextmenu_capture (dom : DomState) (e : MouseEventModel)
    (pos : Option ContextMenuPosition) (sel : SelectionModel)
    (viewerContains : Nat → Bool)
    (hsel : dom.selection = some sel)
    (hcol : sel.isCollapsed = false)
    (htext : (jsTrim sel.text == "") = false)
    (hviewer : dom.pdfViewer = some viewerContains)
    (hcontain : viewerContains sel.container = true) :
    handleContextMenu dom e pos = ⟨some ⟨e.clientX, e.clientY⟩, true⟩ := by
  unfold handleContextMenu
  rw [hsel]
  simp only [hcol, htext, hviewer, hcontain, Bool.false_eq_true, if_false,
    Bool.not_true, Bool.not_false, if_true]

/-- C8 witness: a concrete selection of `" hello "` inside the viewer at
event coordinates `(10, 20)` yields position `(10, 20)` with the default
menu suppressed. -/
theorem c8_contextmenu_capture_witness :
    (DomState.mk (some ⟨false, " hello ", 3⟩) (some fun n => n == 3)).selection =
      some ⟨false, " hello ", 3⟩ ∧
    handleContextMenu ⟨some ⟨false, " hello ", 3⟩, some fun n => n == 3⟩ ⟨10, 20⟩ none =
      ⟨some ⟨10, 20⟩, true⟩ :=
  ⟨rfl, c8_contextmenu_capture ⟨some ⟨false, " hello ", 3⟩, some fun n => n == 3⟩ ⟨10, 20⟩
    none ⟨false, " hello ", 3⟩ (fun n => n == 3) rfl rfl rfl rfl rfl⟩

/-- C1 counterexample: the claimed well-formedness fails: on an input whose
direct parse already has a defined `translation` and an array `points`, the
first stage returns the parsed value as-is, so a nested object inside
`points` survives into the result unfiltered. -/
theorem c1_counterexample :
    parseTranslationResponse "\x7b\"translation\":\"x\",\"points\":[\x7b\"bad\":1\x7d]\x7d" =
      Except.ok (JsValue.obj [("translation", JsValue.str "x"),
        ("points", JsValue.arr [JsValue.obj [("bad", JsValue.num ⟨false, 1, [], 0⟩)]])]) ∧
    wellFormedResult "translation"
      (JsValue.obj [("translation", JsValue.str "x"),
        ("points", JsValue.arr [JsValue.obj [("bad", JsValue.num ⟨false, 1, [], 0⟩)]])]) = false :=
  ⟨rfl, rfl⟩

/-- C1 amended: well-formedness (string primary field, all-string `points`)
is guaranteed for every result produced once the two direct-parse stages have
declined, i.e. for lenient-stage and fallback results; the direct stages
return the parsed value as-is and guarantee only a defined primary field and
an array `points`. -/
theorem c1_amended_wellformed_after_direct_stages (text : String) :
    (caught (directAttempt "translation" text) = none →
      caught (directAttempt "translation" (cleanedText text)) = none →
      ∀ v, parseTranslationResponse text = Except.ok v →
        wellFormedResult "translation" v = true) ∧
    (caught (directAttempt "summary" text) = none →
      caught (directAttempt "summary" (cleanedText text)) = none →
      ∀ v, parseExplanationResponse text = Except.ok v →
        wellFormedResult "summary" v = true) := by
  constructor
  · intro h1 h2 v hv
    cases h3 : caught (lenientAttempt "translation" (cleanedText text)) with
    | some w =>
      have hcalc : parseTranslationResponse text = Except.ok w := by
        unfold parseTranslationResponse
        rw [h1]
        dsimp only
        rw [h2, h3]
      rw [hcalc] at hv
      cases Except.ok.inj hv
      obtain ⟨p, pts, hw, hall⟩ := lenientAttempt_ok_shape _ _ _ (caught_eq_some h3)
      rw [hw]
      exact wellFormed_pair "translation" (by decide) p pts hall
    | none =>
      have hcalc : parseTranslationResponse text =
          Except.ok (JsValue.obj [("translation", JsValue.str text), ("points", JsValue.arr [])]) := by
        unfold parseTranslationResponse
        rw [h1]
        dsimp only
        rw [h2, h3]
      rw [hcalc] at hv
      cases Except.ok.inj hv
      exact wellFormed_pair "translation" (by decide) text [] rfl
  · intro h1 h2 v hv
    cases h3 : caught (lenientAttempt "summary" (cleanedText text)) with
    | some w =>
      have hcalc : parseExplanationResponse text = Except.ok w := by
        unfold parseExplanationResponse
        rw [h1]
        dsimp only
        rw [h2, h3]
      rw [hcalc] at hv
      cases Except.ok.inj hv
      obtain ⟨p, pts, hw, hall⟩ := lenientAttempt_ok_shape _ _ _ (caught_eq_some h3)
      rw [hw]
      exact wellFormed_pair "summary" (by decide) p pts hall
    | none =>
      have hcalc : parseExplanationResponse text =
          Except.ok (JsValue.obj [("summary", JsValue.str text), ("points", JsValue.arr [])]) := by
        unfold parseExplanationResponse
        rw [h1]
        dsimp only
        rw [h2, h3]
      rw [hcalc] at hv
      cases Except.ok.inj hv
      exact wellFormed_pair "summary" (by decide) text [] rfl

/-- C1 amended witness: on garbage input the direct stages decline and the
fallback result is well-formed. -/
theorem c1_amended_wellformed_after_direct_stages_witness :
    caught (directAttempt "translation" "not json at all") = none ∧
    wellFormedResult "translation"
      (JsValue.obj [("translation", JsValue.str "not json at all"),
        ("points", JsValue.arr [])]) = true :=
  ⟨rfl, (c1_amended_wellformed_after_direct_stages "not json at all").1 rfl rfl _ rfl⟩

/-- C6: whenever all three parse stages of both normalizers decline, the
result carries the original raw input verbatim (not the cleaned text) as its
primary field and an empty `points` sequence. -/
theorem c6_fallback_verbatim (text : String)
    (t1 : caught (directAttempt "translation" text) = none)
    (t2 : caught (directAttempt "translation" (cleanedText text)) = none)
    (t3 : caught (lenientAttempt "translation" (cleanedText text)) = none)
    (e1 : caught (directAttempt "summary" text) = none)
    (e2 : caught (directAttempt "summary" (cleanedText text)) = none)
    (e3 : caught (lenientAttempt "summary" (cleanedText text)) = none) :
    parseTranslationResponse text =
      Except.ok (JsValue.obj [("translation", JsValue.str text), ("points", JsValue.arr [])]) ∧
    parseExplanationResponse text =
      Except.ok (JsValue.obj [("summary", JsValue.str text), ("points", JsValue.arr [])]) := by
  unfold parseTranslationResponse parseExplanationResponse
  rw [t1, e1]
  dsimp only
  rw [t2, t3, e2, e3]
  exact ⟨rfl, rfl⟩

/-- C6 witness: on `"not json at all"` every stage declines and the
normalizer returns exactly that text with empty points. -/
theorem c6_fallback_verbatim_witness :
    caught (directAttempt "translation" "not json at all") = none ∧
    caught (directAttempt "translation" (cleanedText "not json at all")) = none ∧
    caught (lenientAttempt "translation" (cleanedText "not json at all")) = none ∧
    caught (directAttempt "summary" "not json at all") = none ∧
    caught (directAttempt "summary" (cleanedText "not json at all")) = none ∧
    caught (lenientAttempt "summary" (cleanedText "not json at all")) = none ∧
    parseTranslationResponse "not json at all" =
      Except.ok (JsValue.obj [("translation", JsValue.str "not json at all"),
        ("points", JsValue.arr [])]) :=
  ⟨rfl, rfl, rfl, rfl, rfl, rfl,
    (c6_fallback_verbatim "not json at all" rfl rfl rfl rfl rfl rfl).1⟩

/-- C10: when the cleaned text parses as JSON but the lenient candidate (the
value, or the first element of an array value) is falsy, and the raw-text
direct stage declines, both normalizers return the raw-text fallback. -/
theorem c10_falsy_candidate_fallback (text : String) (v : JsValue)
    (hparse : jsonParse (cleanedText text) = Except.ok v)
    (hfalsy : truthyOpt (lenientCandidate v) = false)
    (t1 : caught (directAttempt "translation" text) = none)
    (e1 : caught (directAttempt "summary" text) = none) :
    parseTranslationResponse text =
      Except.ok (JsValue.obj [("translation", JsValue.str text), ("points", JsValue.arr [])]) ∧
    parseExplanationResponse text =
      Except.ok (JsValue.obj [("summary", JsValue.str text), ("points", JsValue.arr [])]) := by
  have t2 := directAttempt_declines "translation" (cleanedText text) v hparse hfalsy
  have t3 := lenientAttempt_declines "translation" (cleanedText text) v hparse hfalsy
  have e2 := directAttempt_declines "summary" (cleanedText text) v hparse hfalsy
  have e3 := lenientAttempt_declines "summary" (cleanedText text) v hparse hfalsy
  unfold parseTranslationResponse parseExplanationResponse
  rw [t1, e1]
  dsimp only
  rw [t2, t3, e2, e3]
  exact ⟨rfl, rfl⟩

/-- C10 witness: the empty JSON array input produces the fallback result. -/
theorem c10_falsy_candidate_fallback_witness :
    jsonParse (cleanedText "[]") = Except.ok (JsValue.arr []) ∧
    truthyOpt (lenientCandidate (JsValue.arr [])) = false ∧
    parseTranslationResponse "[]" =
      Except.ok (JsValue.obj [("translation", JsValue.str "[]"), ("points", JsValue.arr [])]) :=
  ⟨rfl, rfl, (c10_falsy_candidate_fallback "[]" (JsValue.arr []) rfl rfl rfl rfl).1⟩

/-- C3 counterexample: dispatching with empty text does not fail locally: the
dispatcher issues one network request to the translate endpoint carrying the
empty text (the claimed zero network calls is violated), and the resulting
failure message comes from the backend HTTP response. -/
theorem c3_counterexample :
    (translateWithGemini none "" "" "" none
      (fun _ => ⟨400, "\x7b\"error\":\"Text required\"\x7d"⟩)).2 =
      [⟨"/api/gemini/translate", "", "", "", "gemini-2.0-flash"⟩] ∧
    (translateWithGemini none "" "" "" none
      (fun _ => ⟨400, "\x7b\"error\":\"Text required\"\x7d"⟩)).1 =
      Except.error (ClientFailure.thrown "Text required") :=
  ⟨rfl, rfl⟩

/-- C3 amended: the dispatchers perform no local empty-text check: a call
with empty text always issues exactly one request, carrying the empty text,
to its backend endpoint, and when the backend answers its 400 `Text required`
error the dispatcher surfaces that message by throwing it. -/
theorem c3_amended_empty_text_one_request (stored : Option String) (cb ca : String)
    (mo : Option String) (doFetch : ClientRequest → ClientResponse)
    (hresp : ∀ r, doFetch r = ⟨400, "\x7b\"error\":\"Text required\"\x7d"⟩) :
    (translateWithGemini stored "" cb ca mo doFetch).2 =
      [⟨"/api/gemini/translate", "", cb, ca, strOr mo (getGeminiSettings stored).model⟩] ∧
    (translateWithGemini stored "" cb ca mo doFetch).1 =
      Except.error (ClientFailure.thrown "Text required") ∧
    (explainDirectly stored "" cb ca mo doFetch).2 =
      [⟨"/api/gemini/explain", "", cb, ca, strOr mo (getGeminiSettings stored).explanationModel⟩] ∧
    (explainDirectly stored "" cb ca mo doFetch).1 =
      Except.error (ClientFailure.thrown "Text required") := by
  unfold translateWithGemini explainDirectly
  simp only [hresp]
  exact ⟨rfl, rfl, rfl, rfl⟩

/-- C3 amended witness: with default settings and the backend 400 response,
the empty-text dispatch issues exactly one request. -/
theorem c3_amended_empty_text_one_request_witness :
    ((fun (_ : ClientRequest) => ClientResponse.mk 400 "\x7b\"error\":\"Text required\"\x7d")
        ⟨"/api/gemini/translate", "", "", "", "gemini-2.0-flash"⟩ =
      ⟨400, "\x7b\"error\":\"Text required\"\x7d"⟩) ∧
    (translateWithGemini none "" "" "" none
      (fun _ => ⟨400, "\x7b\"error\":\"Text required\"\x7d"⟩)).2.length = 1 :=
  ⟨rfl, by
    have h := (c3_amended_empty_text_one_request none "" "" none
      (fun _ => ⟨400, "\x7b\"error\":\"Text required\"\x7d"⟩) (fun _ => rfl)).1
    rw [h]
    rfl⟩

/-- C4: with a set credential and non-empty text, a non-2xx upstream response
is classified purely by status: 429 yields the fixed rate-limit message and
401 or 403 the fixed invalid-key message regardless of the response body
(which is universally quantified), any other status yields the message
embedding the raw status and body, and in every case the handler passes the
upstream status through as its own HTTP status, after exactly one upstream
request; both route handlers behave identically. -/
theorem c4_upstream_status_classification (apiKey : String) (hkey : (apiKey == "") = false)
    (t : String) (ht : (t == "") = false)
    (cb ca m : Option String)
    (status : Nat) (bodyText : String)
    (hnotok : (200 ≤ status && status ≤ 299) = false)
    (upstream : UpstreamRequest → UpstreamResponse)
    (hresp : ∀ r, upstream r = ⟨status, bodyText⟩) :
    ((status == 429) = true →
      (translatePOST (some apiKey) ⟨some t, cb, ca, m⟩ upstream).1 =
        errorJson "Rate limit exceeded. Please wait a moment and try again." status ∧
      (explainPOST (some apiKey) ⟨some t, cb, ca, m⟩ upstream).1 =
        errorJson "Rate limit exceeded. Please wait a moment and try again." status) ∧
    ((status == 429) = false → (status == 401 || status == 403) = true →
      (translatePOST (some apiKey) ⟨some t, cb, ca, m⟩ upstream).1 =
        errorJson "Invalid API key. Please check your Gemini API key in Settings." status ∧
      (explainPOST (some apiKey) ⟨some t, cb, ca, m⟩ upstream).1 =
        errorJson "Invalid API key. Please check your Gemini API key in Settings." status) ∧
    ((status == 429) = false → (status == 401 || status == 403) = false →
      (translatePOST (some apiKey) ⟨some t, cb, ca, m⟩ upstream).1 =
        errorJson ("API error (" ++ toString status ++ "): " ++ bodyText) status ∧
      (explainPOST (some apiKey) ⟨some t, cb, ca, m⟩ upstream).1 =
        errorJson ("API error (" ++ toString status ++ "): " ++ bodyText) status) ∧
    (translatePOST (some apiKey) ⟨some t, cb, ca, m⟩ upstream).1.status = status ∧
    (explainPOST (some apiKey) ⟨some t, cb, ca, m⟩ upstream).1.status = status ∧
    (translatePOST (some apiKey) ⟨some t, cb, ca, m⟩ upstream).2.length = 1 ∧
    (explainPOST (some apiKey) ⟨some t, cb, ca, m⟩ upstream).2.length = 1 := by
  have hTrans : (translatePOST (some apiKey) ⟨some t, cb, ca, m⟩ upstream).1 =
      errorJson
        (if status == 429 then "Rate limit exceeded. Please wait a moment and try again."
         else if status == 401 || status == 403 then
           "Invalid API key. Please check your Gemini API key in Settings."
         else "API error (" ++ toString status ++ "): " ++ bodyText) status := by
    unfold translatePOST
    simp only [strFalsy, hkey, ht, Bool.false_eq_true, if_false, hresp, respOk, hnotok,
      Bool.not_false, if_true]
  have hExpl : (explainPOST (some apiKey) ⟨some t, cb, ca, m⟩ upstream).1 =
      errorJson
        (if status == 429 then "Rate limit exceeded. Please wait a moment and try again."
         else if status == 401 || status == 403 then
           "Invalid API key. Please check your Gemini API key in Settings."
         else "API error (" ++ toString status ++ "): " ++ bodyText) status := by
    unfold explainPOST
    simp only [strFalsy, hkey, ht, Bool.false_eq_true, if_false, hresp, respOk, hnotok,
      Bool.not_false, if_true]
  have hTlen : (translatePOST (some apiKey) ⟨some t, cb, ca, m⟩ upstream).2.length = 1 := by
    unfold translatePOST
    simp only [strFalsy, hkey, ht, Bool.false_eq_true, if_false, hresp, respOk, hnotok,
      Bool.not_false, if_true, List.length_singleton]
  have hElen : (explainPOST (some apiKey) ⟨some t, cb, ca, m⟩ upstream).2.length = 1 := by
    unfold explainPOST
    simp only [strFalsy, hkey, ht, Bool.false_eq_true, if_false, hresp, respOk, hnotok,
      Bool.not_false, if_true, List.length_singleton]
  refine ⟨?_, ?_, ?_, ?_, ?_, hTlen, hElen⟩
  · intro h429
    rw [hTrans, hExpl, h429]
    exact ⟨rfl, rfl⟩
  · intro h429 hauth
    rw [hTrans, hExpl, h429, hauth]
    exact ⟨rfl, rfl⟩
  · intro h429 hauth
    rw [hTrans, hExpl, h429, hauth]
    exact ⟨rfl, rfl⟩
  · rw [hTrans]
    rfl
  · rw [hExpl]
    rfl

/-- C4 witness: a concrete 429 upstream response with an arbitrary body is
classified as the fixed rate-limit message with status 429 passed through. -/
theorem c4_upstream_status_classification_witness :
    ((429 == 429) = true) ∧
    ((200 ≤ 429 && 429 ≤ 299) = false) ∧
    (translatePOST (some "k") ⟨some "hello", none, none, none⟩
      (fun _ => ⟨429, "any body at all"⟩)).1 =
      errorJson "Rate limit exceeded. Please wait a moment and try again." 429 :=
  ⟨rfl, by decide,
    ((c4_upstream_status_classification "k" rfl "hello" rfl none none none 429
      "any body at all" (by decide) (fun _ => ⟨429, "any body at all"⟩) (fun _ => rfl)).1 rfl).1⟩

end Pedaru
